import Mathlib

/-!
Verification of the gofi WiFi data-link library (Go) against its
specification, via a shallow embedding of the two source files
(`handle.go` and the MAC-packet codec file) into Lean.

Go's `int` and the derived types `ChannelWidth` and `DataRate` are
embedded as `Int`; byte slices are embedded as `List Nat`.
-/

namespace Gofi

/-! ## Channel width model (handle.go) -/

/-- Go: `type ChannelWidth int`. -/
abbrev ChannelWidth := Int

/-- Go: `ChannelWidthUnspecified = iota` (value 0). -/
def ChannelWidthUnspecified : ChannelWidth := 0

/-- Go: `ChannelWidth20MHz` (iota value 1). -/
def ChannelWidth20MHz : ChannelWidth := 1

/-- Go: `ChannelWidth40MHz` (iota value 2). -/
def ChannelWidth40MHz : ChannelWidth := 2

/-- Go `NewChannelWidthMegahertz`: a `switch` on `mhz` with cases 20 and 40
and a default returning `ChannelWidthUnspecified`. -/
def NewChannelWidthMegahertz (mhz : Int) : ChannelWidth :=
  if mhz = 20 then ChannelWidth20MHz
  else if mhz = 40 then ChannelWidth40MHz
  else ChannelWidthUnspecified

/-- Go `(w ChannelWidth) Megahertz()`: a lookup in the map literal
`{ChannelWidth20MHz: 20, ChannelWidth40MHz: 40}`; a Go map lookup miss
yields the zero value 0. -/
def ChannelWidth.Megahertz (w : ChannelWidth) : Int :=
  if w = ChannelWidth20MHz then 20
  else if w = ChannelWidth40MHz then 40
  else 0

/-! ## Data rate model (handle.go) -/

/-- Go: `type DataRate int`, a rate in multiples of 500 Kb/s. -/
abbrev DataRate := Int

/-- Bit length of a natural number, with enough structural fuel to cover
every value arising from a 64-bit (indeed up to 128-bit) machine integer. -/
def bitLenAux (fuel n : Nat) : Nat :=
  match fuel with
  | 0 => 0
  | f + 1 => if n = 0 then 0 else bitLenAux f (n / 2) + 1

/-- Bit length of a natural number (0 has bit length 0). -/
def bitLen (n : Nat) : Nat := bitLenAux 128 n

/-- The exact integer value of the IEEE-754 binary64 number nearest to `n`
(round to nearest, ties to even), for `|n| < 2 ^ 63`: this is the value of
Go's conversion `float64(d)` on a 64-bit `int`.  Integers of magnitude at
most `2 ^ 53` are exactly representable; larger ones are rounded to 53
significant bits. -/
def floatOfInt (n : Int) : Int :=
  if n.natAbs ≤ 2 ^ 53 then n
  else
    let a := n.natAbs
    let sh := bitLen a - 53
    let q := a / 2 ^ sh
    let r := a % 2 ^ sh
    let half := 2 ^ (sh - 1)
    let q2 := if half < r ∨ (r = half ∧ q % 2 = 1) then q + 1 else q
    (if n < 0 then -1 else 1) * (q2 * 2 ^ sh : Nat)

/-- Go's `fmt.Sprintf("%.1f", v)` for a float64 `v` whose exact value is
`t / 10` for an integer `t`: the value already has at most one decimal
digit, so no rounding occurs and the output is the sign, the integer part,
a dot, and the single tenths digit. -/
def fmtPoint1 (t : Int) : String :=
  (if t < 0 then "-" else "") ++ Nat.repr (t.natAbs / 10) ++ "." ++
    Nat.repr (t.natAbs % 10)

/-- Go `(d DataRate) String()`: `fmt.Sprintf("%.1f Mb/s", float64(d)/2.0)`.
Dividing a binary64 float by 2 is exact, so the float being formatted has
exact value `floatOfInt d / 2`, i.e. `(5 * floatOfInt d) / 10`. -/
def DataRateString (d : DataRate) : String :=
  fmtPoint1 (5 * floatOfInt d) ++ " Mb/s"

/-- The spec's words for `DataRate.String`: the value `d` divided by 2,
formatted with exactly one fractional digit, followed by the unit
`" Mb/s"` (note `d / 2 = (5 * d) / 10` exactly). -/
def specDataRateString (d : Int) : String :=
  fmtPoint1 (5 * d) ++ " Mb/s"

/-! ## MAC packet codec model (the unnamed codec source file) -/

/-- Go errors are values; the codec's only error result slot is modelled as
an `Option GoError`, `none` being Go's `nil` error. -/
inductive GoError where
  | decodeError
deriving DecidableEq

/-- Go: `type MACPacket struct { RawData []byte }` (the struct's only field;
the source marks further fields as TODO). -/
structure MACPacket where
  RawData : List Nat
deriving DecidableEq

/-- Go `ParseMACPacket(data []byte) (*MACPacket, error)`: the body is
`return &MACPacket{data}, nil` (parsing marked TODO), so every input —
of any length and any leading bytes — yields a packet wrapping the raw
bytes, with a nil error. -/
def ParseMACPacket (data : List Nat) : MACPacket × Option GoError :=
  (⟨data⟩, none)

/-- Go `(m *MACPacket) Encode() []byte`: the body is `return m.RawData`. -/
def MACPacket.Encode (m : MACPacket) : List Nat :=
  m.RawData

/-- The Go method call `m.Encode()` as a state transformer on the receiver:
the body `return m.RawData` reads the receiver and performs no assignment,
so the call returns the encoded bytes and leaves the receiver unchanged. -/
def MACPacket.encodeRun (m : MACPacket) : List Nat × MACPacket :=
  (m.Encode, m)

/-! ## Handle model

`Handle` is declared in handle.go only as an interface — the repository
contains no implementing type — so its behaviour is modelled from the
spec's contract. -/

/-- The spec's error kinds relevant to the Handle lifecycle. -/
inductive HandleError where
  | closedError
  | transportError
deriving DecidableEq

/-- Modelled from the spec: no `Handle` implementation exists in the
repository, so the lifecycle state machine `Open → Closed` (with `Closed`
absorbing) is taken from the spec's §4.4 contract.  The state records
whether the handle has been closed. -/
structure HandleState where
  closed : Bool
deriving DecidableEq

/-- Modelled from the spec: `Close()` moves the handle to the `Closed`
state; it is the only terminal transition and is idempotent. -/
def Handle.close (s : HandleState) : HandleState :=
  { s with closed := true }

/-- Modelled from the spec: the outcome of a `Receive()` call, given the
handle state and the next frame delivery (`none` when no data ever
arrives).  `none` outcome means the call is still blocked; on a closed
handle the call terminates with `ClosedError` regardless of deliveries,
and `Receive` does not change the handle state. -/
def Handle.receiveOutcome (s : HandleState) (arrival : Option MACPacket) :
    Option (Except HandleError MACPacket) :=
  if s.closed then some (Except.error HandleError.closedError)
  else arrival.map Except.ok

/-- Modelled from the spec: `Send(frame, rate)` on a closed handle fails
with `ClosedError`; otherwise it succeeds, leaving the state unchanged. -/
def Handle.sendOutcome (s : HandleState) (_f : MACPacket) (_rate : DataRate) :
    Except HandleError Unit :=
  if s.closed then Except.error HandleError.closedError else Except.ok ()

/-- Modelled from the spec: `SupportedRates()` returns the rates the
device advertises, sorted in ascending numeric order, and an empty slice
when the advertised rates are unknown (`none`). -/
def SupportedRates (advertised : Option (List DataRate)) : List DataRate :=
  match advertised with
  | none => []
  | some rs => rs.insertionSort (fun a b => a ≤ b)

end Gofi

namespace Gofi

/-! ## Theorems for the channel/rate claims -/

/-- C3: `NewChannelWidthMegahertz` maps 20 to `ChannelWidth20MHz`, 40 to
`ChannelWidth40MHz`, and every other integer to `ChannelWidthUnspecified`;
it is a total function (the Go function has no error result). -/
theorem newChannelWidthMegahertz_spec :
    NewChannelWidthMegahertz 20 = ChannelWidth20MHz ∧
    NewChannelWidthMegahertz 40 = ChannelWidth40MHz ∧
    ∀ mhz : Int, mhz ≠ 20 → mhz ≠ 40 →
      NewChannelWidthMegahertz mhz = ChannelWidthUnspecified := by
  refine ⟨rfl, rfl, ?_⟩
  intro mhz h20 h40
  simp [NewChannelWidthMegahertz, h20, h40]

/-- Witness for C3 at the concrete input 33. -/
theorem newChannelWidthMegahertz_spec_witness :
    NewChannelWidthMegahertz 33 = ChannelWidthUnspecified :=
  newChannelWidthMegahertz_spec.2.2 33 (by decide) (by decide)

/-- C4: `Megahertz` returns 20 for `ChannelWidth20MHz`, 40 for
`ChannelWidth40MHz`, and the map-lookup-miss default 0 for
`ChannelWidthUnspecified`. -/
theorem channelWidth_megahertz_values :
    ChannelWidth.Megahertz ChannelWidth20MHz = 20 ∧
    ChannelWidth.Megahertz ChannelWidth40MHz = 40 ∧
    ChannelWidth.Megahertz ChannelWidthUnspecified = 0 := by
  decide

/-- C6: for mhz in {20, 40}, converting to a `ChannelWidth` and back
yields mhz. -/
theorem newChannelWidth_megahertz_roundtrip :
    ∀ mhz : Int, mhz = 20 ∨ mhz = 40 →
      ChannelWidth.Megahertz (NewChannelWidthMegahertz mhz) = mhz := by
  rintro mhz (rfl | rfl) <;> decide

/-- Witness for C6 at the concrete input 20. -/
theorem newChannelWidth_megahertz_roundtrip_witness :
    ChannelWidth.Megahertz (NewChannelWidthMegahertz 20) = 20 :=
  newChannelWidth_megahertz_roundtrip 20 (Or.inl rfl)

/-! ## Theorems for the data-rate formatting claim -/

/-- C5 (counterexample): at `d = 2 ^ 53 + 1` — which fits in Go's 64-bit
`int` — the conversion `float64(d)` rounds (ties to even) to `2 ^ 53`, so
the code prints "4503599627370496.0 Mb/s" while `d / 2` formatted with one
fractional digit is "4503599627370496.5 Mb/s": the claim fails for this
`d`. -/
theorem dataRateString_large_counterexample :
    DataRateString 9007199254740993 = "4503599627370496.0 Mb/s" ∧
    specDataRateString 9007199254740993 = "4503599627370496.5 Mb/s" ∧
    DataRateString 9007199254740993 ≠ specDataRateString 9007199254740993 := by
  refine ⟨by decide, by decide, by decide⟩

/-- C5 (amended): for every `d` whose magnitude is at most `2 ^ 53` — so
that `float64(d)` is exact — `DataRate(d).String()` is the value `d / 2`
formatted with exactly one fractional digit followed by " Mb/s"; in
particular `DataRate(11).String() = "5.5 Mb/s"` and
`DataRate(2).String() = "1.0 Mb/s"`. -/
theorem dataRateString_one_decimal :
    (∀ d : DataRate, d.natAbs ≤ 2 ^ 53 →
      DataRateString d = specDataRateString d) ∧
    DataRateString 11 = "5.5 Mb/s" ∧
    DataRateString 2 = "1.0 Mb/s" := by
  refine ⟨?_, by decide, by decide⟩
  intro d h
  have hf : floatOfInt d = d := by
    unfold floatOfInt
    rw [if_pos h]
  simp [DataRateString, specDataRateString, hf]

/-- Witness for C5 at the concrete input 11. -/
theorem dataRateString_one_decimal_witness :
    DataRateString 11 = specDataRateString 11 :=
  dataRateString_one_decimal.1 11 (by decide)

/-! ## Theorems for the codec claims -/

/-- C1 (failing input): on the empty byte sequence — shorter than any
valid MAC header — `ParseMACPacket` returns a nil error and a packet
wrapping the input, instead of the `DecodeError` the claim requires. -/
theorem parseMACPacket_accepts_short_input :
    (ParseMACPacket []).2 = none ∧ (ParseMACPacket []).1.RawData = [] :=
  ⟨rfl, rfl⟩

/-- C2: for every byte sequence `b` (in particular every well-formed frame
byte sequence), encoding the parse of `b` reproduces `b` exactly. -/
theorem encode_parseMACPacket_roundtrip :
    ∀ b : List Nat, (ParseMACPacket b).1.Encode = b := by
  intro b
  rfl

/-- C7: `Encode` is deterministic and does not modify the receiver: calling
`Encode` twice in sequence on a packet yields the same byte sequence both
times, and after both calls the receiver is unchanged. -/
theorem macPacket_encode_deterministic :
    ∀ m : MACPacket,
      (m.encodeRun.2).encodeRun.1 = m.encodeRun.1 ∧
      (m.encodeRun.2).encodeRun.2 = m := by
  intro m
  exact ⟨rfl, rfl⟩

/-! ## Theorems for the Handle claims (spec-modelled) -/

/-- C8: `Close` is idempotent; after `Close` the handle is in the
absorbing `Closed` state, every `Receive` — in-flight with no delivery, or
subsequent — terminates with `ClosedError` (never stays blocked), and
every `Send` fails with `ClosedError`. -/
theorem handle_close_idempotent_absorbing :
    (∀ s : HandleState, Handle.close (Handle.close s) = Handle.close s) ∧
    (∀ s : HandleState, (Handle.close s).closed = true) ∧
    (∀ (s : HandleState) (a : Option MACPacket),
      Handle.receiveOutcome (Handle.close s) a =
        some (Except.error HandleError.closedError)) ∧
    (∀ (s : HandleState) (f : MACPacket) (r : DataRate),
      Handle.sendOutcome (Handle.close s) f r =
        Except.error HandleError.closedError) := by
  refine ⟨fun s => rfl, fun s => rfl, fun s a => rfl, fun s f r => rfl⟩

/-- C9: `SupportedRates` returns an empty list when the rates are
unknown, and otherwise a list sorted in ascending numeric order that is a
permutation of the device's advertised rates. -/
theorem supportedRates_sorted :
    SupportedRates none = [] ∧
    ∀ rs : List DataRate,
      List.Sorted (fun a b => a ≤ b) (SupportedRates (some rs)) ∧
      List.Perm (SupportedRates (some rs)) rs := by
  refine ⟨rfl, fun rs => ⟨?_, ?_⟩⟩
  · exact List.sorted_insertionSort (fun a b => a ≤ b) rs
  · exact List.perm_insertionSort (fun a b => a ≤ b) rs

/-- C10: `ParseMACPacket` is total and never fails: every byte sequence
`b`, including the empty one, yields a nil error and a packet whose
`RawData` is exactly `b`, so the encode/parse round-trip holds for all
inputs. -/
theorem parseMACPacket_total_roundtrip :
    ∀ b : List Nat,
      (ParseMACPacket b).2 = none ∧
      (ParseMACPacket b).1.RawData = b ∧
      (ParseMACPacket b).1.Encode = b := by
  intro b
  exact ⟨rfl, rfl, rfl⟩

end Gofi
